import Mathlib

/-!
Verification of the biscuit token builder module (src/token/builder.rs)
against its natural-language specification.

The builder module is embedded shallowly: the pure data types and the
conversion functions are translated directly from the Rust source.  The
`SymbolTable` and the datalog caveat checker live in the `datalog` module of
the crate, which is not part of the examined sources; those are modelled
from the specification (sections 4.1-4.3) and are marked as such in their
doc comments.  Rust's `Vec<T>` is modelled as `List T`, `u32`/`u64`/`usize`
as `Nat`, `i64` as `Int`, and `SystemTime` as a whole number of seconds
relative to `UNIX_EPOCH` (an `Int`, negative before the epoch); the panic of
`Result::unwrap` on `Err` is modelled by an `Option` result being `none`.
-/

namespace Biscuit

namespace datalog

/-- Modelled from the spec: the cumulative symbol table of section 4.1, a
dense arena of interned strings.  Only the `symbols` vector is observable
from the builder module. -/
structure SymbolTable where
  symbols : List String
deriving DecidableEq

/-- Modelled from the spec, section 4.1: `insert(text)` returns the existing
code if `text` was previously inserted anywhere in the cumulative table,
else appends `text` and returns the new code. -/
def SymbolTable.insert (t : SymbolTable) (x : String) : Nat × SymbolTable :=
  match t.symbols.findIdx? (fun y => y == x) with
  | some i => (i, t)
  | none => (t.symbols.length, { symbols := t.symbols ++ [x] })

/-- The converted identifier type `datalog::ID` (tagged union of section 3);
its shape is fixed by the conversion functions in the builder source. -/
inductive ID where
  | Symbol (s : Nat)
  | Variable (v : Nat)
  | Integer (i : Int)
  | Str (s : String)
  | Date (d : Nat)
deriving DecidableEq

def ID.isVariable : ID → Bool
  | ID.Variable _ => true
  | _ => false

/-- Modelled from the spec, section 4.2: string constraint kinds used by the
builder (`Prefix`, `Suffix`) together with exact equality; the remaining
kinds (regex, set membership) are not exercised by the builder module. -/
inductive StrConstraint where
  | Prefix (p : String)
  | Suffix (p : String)
  | Equal (p : String)
deriving DecidableEq

/-- Modelled from the spec, section 4.2: date constraints, inclusive at the
boundary as the spec's determinism policy documents. -/
inductive DateConstraint where
  | Before (t : Nat)
  | After (t : Nat)
deriving DecidableEq

/-- Modelled from the spec, section 4.2: integer constraints; only equality
is needed by the examined claims. -/
inductive IntConstraint where
  | Equal (i : Int)
deriving DecidableEq

inductive ConstraintKind where
  | Int (c : IntConstraint)
  | Str (c : StrConstraint)
  | Date (c : DateConstraint)
deriving DecidableEq

/-- `datalog::Constraint`: a constraint binds to one variable index (`id`)
and carries a kind, exactly as the builder source constructs it. -/
structure Constraint where
  id : Nat
  kind : ConstraintKind
deriving DecidableEq

/-- Modelled from the spec, section 4.2: pure boolean acceptance of a ground
candidate identifier by a constraint kind; a mismatched identifier kind is
rejected, not an error. -/
def ConstraintKind.check : ConstraintKind → ID → Bool
  | ConstraintKind.Str (StrConstraint.Prefix p), ID.Str s2 => p.data.isPrefixOf s2.data
  | ConstraintKind.Str (StrConstraint.Suffix p), ID.Str s2 => p.data.isSuffixOf s2.data
  | ConstraintKind.Str (StrConstraint.Equal p), ID.Str s2 => p == s2
  | ConstraintKind.Date (DateConstraint.Before t), ID.Date d => decide (d ≤ t)
  | ConstraintKind.Date (DateConstraint.After t), ID.Date d => decide (t ≤ d)
  | ConstraintKind.Int (IntConstraint.Equal i), ID.Integer j => i == j
  | _, _ => false

/-- `datalog::Predicate`: an interned name plus positional identifiers. -/
structure Predicate where
  name : Nat
  ids : List ID
deriving DecidableEq

def Predicate.isGround (p : Predicate) : Bool :=
  p.ids.all (fun i => ! ID.isVariable i)

/-- `datalog::Fact`: a predicate asserted as truth. -/
structure Fact where
  predicate : Predicate
deriving DecidableEq

/-- `datalog::Rule`: head, body, constraints, as the builder constructs. -/
structure Rule where
  head : Predicate
  body : List Predicate
  constraints : List Constraint
deriving DecidableEq

/-- A candidate variable binding discovered during unification. -/
abbrev Binding := List (Nat × ID)

def lookupVar (env : Binding) (v : Nat) : Option ID :=
  (env.find? (fun x => x.1 == v)).map (fun x => x.2)

/-- Modelled from the spec, section 4.3: binding a variable must agree with
any earlier binding of the same variable (consistency requirement). -/
def bindVar (env : Binding) (v : Nat) (val : ID) : Option Binding :=
  match lookupVar env v with
  | some w => if w == val then some env else none
  | none => some ((v, val) :: env)

/-- Modelled from the spec, section 4.3: positional identifiers match if
both ground and equal, or if the pattern side is a `Variable`. -/
def matchID (env : Binding) : ID → ID → Option Binding
  | ID.Variable v, g => bindVar env v g
  | pat, g => if pat == g then some env else none

def matchIds (env : Binding) : List ID → List ID → Option Binding
  | [], [] => some env
  | pat :: pats, g :: gs =>
    match matchID env pat g with
    | some env2 => matchIds env2 pats gs
    | none => none
  | _, _ => none

/-- Modelled from the spec, section 4.3: predicates match only if names and
arities are equal (arity mismatch is rejected by `matchIds`). -/
def matchPred (env : Binding) (p : Predicate) (f : Fact) : Option Binding :=
  if p.name == f.predicate.name then matchIds env p.ids f.predicate.ids
  else none

/-- Modelled from the spec, section 4.3: a conjunctive query over the body
predicates against the fact set, with shared variables enforcing equality
across predicates; returns every satisfying binding. -/
def matchBody (facts : List Fact) : Binding → List Predicate → List Binding
  | env, [] => [env]
  | env, p :: ps =>
    (facts.filterMap (fun f => matchPred env p f)).flatMap
      (fun env2 => matchBody facts env2 ps)

/-- Modelled from the spec, sections 4.2-4.3: every constraint is applied to
the binding of its variable before a candidate binding is accepted. -/
def constraintsOk (env : Binding) (cs : List Constraint) : Bool :=
  cs.all (fun c =>
    match lookupVar env c.id with
    | some v => ConstraintKind.check c.kind v
    | none => false)

/-- Modelled from the spec, section 4.3: `check_caveat` returns true iff at
least one satisfying, constraint-passing binding of the caveat body against
the fact set exists; the head is never asserted. -/
def check_caveat (facts : List Fact) (r : Rule) : Bool :=
  (matchBody facts [] r.body).any (fun env => constraintsOk env r.constraints)

end datalog

/-- `builder::Atom`: the literal-level identifier before interning. -/
inductive Atom where
  | Symbol (s : String)
  | Variable (v : Nat)
  | Integer (i : Int)
  | Str (s : String)
  | Date (d : Nat)
deriving DecidableEq

def Atom.isVariable : Atom → Bool
  | Atom.Variable _ => true
  | _ => false

/-- `Atom::convert`: interns symbols through the table, leaves the other
variants untouched (state-passing form of the Rust `&mut SymbolTable`). -/
def Atom.convert : Atom → datalog.SymbolTable → datalog.ID × datalog.SymbolTable
  | Atom.Symbol x, t =>
    let r := datalog.SymbolTable.insert t x
    (datalog.ID.Symbol r.1, r.2)
  | Atom.Variable v, t => (datalog.ID.Variable v, t)
  | Atom.Integer i, t => (datalog.ID.Integer i, t)
  | Atom.Str x, t => (datalog.ID.Str x, t)
  | Atom.Date d, t => (datalog.ID.Date d, t)

/-- `builder::Predicate`: a name plus an ordered atom list. -/
structure Predicate where
  name : String
  ids : List Atom
deriving DecidableEq

/-- `Predicate::new`. -/
def Predicate.new (name : String) (ids : List Atom) : Predicate :=
  { name := name, ids := ids }

def Predicate.isGround (p : Predicate) : Bool :=
  p.ids.all (fun a => ! Atom.isVariable a)

/-- The loop of `Predicate::convert` over the identifier list. -/
def convertIds : List Atom → datalog.SymbolTable → List datalog.ID × datalog.SymbolTable
  | [], t => ([], t)
  | a :: rest, t =>
    let r := Atom.convert a t
    let r2 := convertIds rest r.2
    (r.1 :: r2.1, r2.2)

/-- `Predicate::convert`: intern the name, then convert each identifier. -/
def Predicate.convert (p : Predicate) (t : datalog.SymbolTable) :
    datalog.Predicate × datalog.SymbolTable :=
  let n := datalog.SymbolTable.insert t p.name
  let r := convertIds p.ids n.2
  ({ name := n.1, ids := r.1 }, r.2)

/-- `builder::Fact`: a tuple struct wrapping one predicate. -/
structure Fact where
  pred : Predicate
deriving DecidableEq

/-- `Fact::new`. -/
def Fact.new (name : String) (ids : List Atom) : Fact :=
  { pred := Predicate.new name ids }

/-- `Fact::convert`. -/
def Fact.convert (f : Fact) (t : datalog.SymbolTable) :
    datalog.Fact × datalog.SymbolTable :=
  let r := Predicate.convert f.pred t
  ({ predicate := r.1 }, r.2)

/-- `builder::Rule`: head, body, and already-converted constraints (the Rust
tuple struct `Rule(Predicate, Vec<Predicate>, Vec<datalog::Constraint>)`). -/
structure Rule where
  head : Predicate
  body : List Predicate
  constraints : List datalog.Constraint
deriving DecidableEq

/-- The loop of `Rule::convert` over the body predicates. -/
def convertPreds : List Predicate → datalog.SymbolTable → List datalog.Predicate × datalog.SymbolTable
  | [], t => ([], t)
  | p :: rest, t =>
    let r := Predicate.convert p t
    let r2 := convertPreds rest r.2
    (r.1 :: r2.1, r2.2)

/-- `Rule::convert`: convert the head, then the body; constraints are
cloned unchanged. -/
def Rule.convert (r : Rule) (t : datalog.SymbolTable) :
    datalog.Rule × datalog.SymbolTable :=
  let h := Predicate.convert r.head t
  let b := convertPreds r.body h.2
  ({ head := h.1, body := b.1, constraints := r.constraints }, b.2)

/-- The free function `pred` of the builder module. -/
def pred (name : String) (ids : List Atom) : Predicate :=
  { name := name, ids := ids }

/-- The free function `fact` of the builder module. -/
def fact (name : String) (ids : List Atom) : Fact :=
  { pred := pred name ids }

/-- The free function `rule`: a rule with no constraints. -/
def rule (head_name : String) (head_ids : List Atom) (predicates : List Predicate) : Rule :=
  { head := pred head_name head_ids, body := predicates, constraints := [] }

/-- The free function `constrained_rule`. -/
def constrained_rule (head_name : String) (head_ids : List Atom)
    (predicates : List Predicate) (constraints : List datalog.Constraint) : Rule :=
  { head := pred head_name head_ids, body := predicates, constraints := constraints }

/-- The free function `int`. -/
def int (i : Int) : Atom := Atom.Integer i

/-- The free function `string`. -/
def string (x : String) : Atom := Atom.Str x

/-- The free function `s`. -/
def s (x : String) : Atom := Atom.Symbol x

/-- The free function `symbol`. -/
def symbol (x : String) : Atom := Atom.Symbol x

/-- The free function `var`. -/
def var (i : Nat) : Atom := Atom.Variable i

/-- `SystemTime::duration_since(UNIX_EPOCH)` followed by `as_secs`, with
`SystemTime` modelled as whole seconds relative to the epoch: `Err` (a time
earlier than the epoch) is `none`, and `unwrap` on that `Err` is the panic
the `Option` result records. -/
def duration_since_epoch (t : Int) : Option Nat :=
  if 0 ≤ t then some t.toNat else none

/-- The free function `date`: `t.duration_since(UNIX_EPOCH).unwrap()` then
`Atom::Date(dur.as_secs())`; `none` models the panic of `unwrap`. -/
def date (t : Int) : Option Atom :=
  (duration_since_epoch t).map (fun d => Atom.Date d)

/-- `token::Block`: index, incremental symbol table, facts, rules, caveats
(the fields the builder module populates). -/
structure Block where
  index : Nat
  symbols : datalog.SymbolTable
  facts : List datalog.Fact
  rules : List datalog.Rule
  caveats : List datalog.Rule
deriving DecidableEq

/-- `builder::BlockBuilder`. -/
structure BlockBuilder where
  index : Nat
  symbols_start : Nat
  symbols : datalog.SymbolTable
  facts : List datalog.Fact
  rules : List datalog.Rule
  caveats : List datalog.Rule
deriving DecidableEq

/-- `BlockBuilder::new`: records the base table's length as the start of
this block's incremental vocabulary. -/
def BlockBuilder.new (index : Nat) (base_symbols : datalog.SymbolTable) : BlockBuilder :=
  { index := index
    symbols_start := base_symbols.symbols.length
    symbols := base_symbols
    facts := []
    rules := []
    caveats := [] }

/-- `BlockBuilder::add_fact`: convert through the builder's table and push. -/
def BlockBuilder.add_fact (b : BlockBuilder) (f : Fact) : BlockBuilder :=
  let r := Fact.convert f b.symbols
  { b with symbols := r.2, facts := b.facts ++ [r.1] }

/-- `BlockBuilder::add_rule`. -/
def BlockBuilder.add_rule (b : BlockBuilder) (r : Rule) : BlockBuilder :=
  let c := Rule.convert r b.symbols
  { b with symbols := c.2, rules := b.rules ++ [c.1] }

/-- `BlockBuilder::add_caveat`. -/
def BlockBuilder.add_caveat (b : BlockBuilder) (caveat : Rule) : BlockBuilder :=
  let c := Rule.convert caveat b.symbols
  { b with symbols := c.2, caveats := b.caveats ++ [c.1] }

/-- `BlockBuilder::build`: `split_off(symbols_start)` keeps only the suffix
of newly introduced symbols inside the block. -/
def BlockBuilder.build (b : BlockBuilder) : Block :=
  { index := b.index
    symbols := { symbols := b.symbols.symbols.drop b.symbols_start }
    facts := b.facts
    rules := b.rules
    caveats := b.caveats }

/-- The caveat rule built inside `BlockBuilder::check_right`. -/
def check_right_rule (right : String) : Rule :=
  rule "check_right" [s right]
    [pred "resource" [s "ambient", Atom.Variable 0],
     pred "operation" [s "ambient", s right],
     pred "right" [s "authority", Atom.Variable 0, s right]]

/-- `BlockBuilder::check_right`. -/
def BlockBuilder.check_right (b : BlockBuilder) (right : String) : BlockBuilder :=
  BlockBuilder.add_caveat b (check_right_rule right)

/-- `BlockBuilder::check_resource`. -/
def BlockBuilder.check_resource (b : BlockBuilder) (resource : String) : BlockBuilder :=
  BlockBuilder.add_caveat b
    (rule "resource_check" [s "resource_check"]
      [pred "resource" [s "ambient", string resource]])

/-- `BlockBuilder::check_operation`. -/
def BlockBuilder.check_operation (b : BlockBuilder) (operation : String) : BlockBuilder :=
  BlockBuilder.add_caveat b
    (rule "operation_check" [s "operation_check"]
      [pred "operation" [s "ambient", s operation]])

/-- The caveat rule built inside `BlockBuilder::resource_prefix`. -/
def resource_prefix_rule (p : String) : Rule :=
  constrained_rule "prefix" [Atom.Variable 0]
    [pred "resource" [s "ambient", Atom.Variable 0]]
    [{ id := 0, kind := datalog.ConstraintKind.Str (datalog.StrConstraint.Prefix p) }]

/-- `BlockBuilder::resource_prefix`. -/
def BlockBuilder.resource_prefix (b : BlockBuilder) (p : String) : BlockBuilder :=
  BlockBuilder.add_caveat b (resource_prefix_rule p)

/-- `BlockBuilder::resource_suffix`. -/
def BlockBuilder.resource_suffix (b : BlockBuilder) (p : String) : BlockBuilder :=
  BlockBuilder.add_caveat b
    (constrained_rule "suffix" [Atom.Variable 0]
      [pred "resource" [s "ambient", Atom.Variable 0]]
      [{ id := 0, kind := datalog.ConstraintKind.Str (datalog.StrConstraint.Suffix p) }])

/-- The caveat rule built inside `BlockBuilder::expiration_date`, once the
epoch-seconds value `d` has been extracted. -/
def expiration_rule (d : Nat) : Rule :=
  constrained_rule "expiration" [Atom.Variable 0]
    [pred "time" [s "ambient", Atom.Variable 0]]
    [{ id := 0, kind := datalog.ConstraintKind.Date (datalog.DateConstraint.Before d) }]

/-- `BlockBuilder::expiration_date`: `date.duration_since(UNIX_EPOCH)` is
unwrapped, so a pre-epoch time makes the whole call panic (`none` here). -/
def BlockBuilder.expiration_date (b : BlockBuilder) (t : Int) : Option BlockBuilder :=
  (duration_since_epoch t).map (fun d => BlockBuilder.add_caveat b (expiration_rule d))

/-- `BlockBuilder::revocation_id`. -/
def BlockBuilder.revocation_id (b : BlockBuilder) (i : Int) : BlockBuilder :=
  BlockBuilder.add_fact b (fact "revocation_id" [int i])

/-- `builder::BiscuitBuilder`, without the rng and root-key fields (they
only feed the final signing step, which is outside the builder logic). -/
structure BiscuitBuilder where
  symbols_start : Nat
  symbols : datalog.SymbolTable
  facts : List datalog.Fact
  rules : List datalog.Rule
  caveats : List datalog.Rule
deriving DecidableEq

/-- `BiscuitBuilder::new`. -/
def BiscuitBuilder.new (base_symbols : datalog.SymbolTable) : BiscuitBuilder :=
  { symbols_start := base_symbols.symbols.length
    symbols := base_symbols
    facts := []
    rules := []
    caveats := [] }

/-- The local `authority_symbol` of `add_authority_fact`/`add_authority_rule`. -/
def authority_symbol : Atom := Atom.Symbol "authority"

/-- The test `!(ids.is_empty() || ids[0] != authority_symbol)`: true iff the
identifier list already begins with the `authority` symbol. -/
def beginsWithAuthority (ids : List Atom) : Bool :=
  match ids with
  | [] => false
  | a :: _ => a == authority_symbol

/-- The marker normalization shared by `add_authority_fact` and
`add_authority_rule`: insert `authority` at position 0 unless the identifier
list already begins with it. -/
def authority_normalize (p : Predicate) : Predicate :=
  if beginsWithAuthority p.ids then p
  else { p with ids := authority_symbol :: p.ids }

/-- `BiscuitBuilder::add_authority_fact`. -/
def BiscuitBuilder.add_authority_fact (b : BiscuitBuilder) (f : Fact) : BiscuitBuilder :=
  let f2 : Fact := { pred := authority_normalize f.pred }
  let r := Fact.convert f2 b.symbols
  { b with symbols := r.2, facts := b.facts ++ [r.1] }

/-- `BiscuitBuilder::add_authority_rule`. -/
def BiscuitBuilder.add_authority_rule (b : BiscuitBuilder) (r : Rule) : BiscuitBuilder :=
  let r2 : Rule := { r with head := authority_normalize r.head }
  let c := Rule.convert r2 b.symbols
  { b with symbols := c.2, rules := b.rules ++ [c.1] }

/-- `BiscuitBuilder::add_authority_caveat`: converts the caveat as given,
with no authority-marker normalization. -/
def BiscuitBuilder.add_authority_caveat (b : BiscuitBuilder) (caveat : Rule) : BiscuitBuilder :=
  let c := Rule.convert caveat b.symbols
  { b with symbols := c.2, caveats := b.caveats ++ [c.1] }

/-- `BiscuitBuilder::add_right`. -/
def BiscuitBuilder.add_right (b : BiscuitBuilder) (resource right : String) : BiscuitBuilder :=
  BiscuitBuilder.add_authority_fact b
    (fact "right" [s "authority", string resource, s right])

/-- One public mutation of a `BlockBuilder`; the remaining public methods
(`check_right`, `resource_prefix`, `expiration_date`, `revocation_id`, ...)
all reduce to one of these three. -/
inductive BuilderOp where
  | addFact (f : Fact)
  | addRule (r : Rule)
  | addCaveat (r : Rule)

def applyOp (b : BlockBuilder) : BuilderOp → BlockBuilder
  | BuilderOp.addFact f => BlockBuilder.add_fact b f
  | BuilderOp.addRule r => BlockBuilder.add_rule b r
  | BuilderOp.addCaveat r => BlockBuilder.add_caveat b r

/-- A builder history: the builder obtained from a starting state by a
sequence of public mutations. -/
def applyOps (b : BlockBuilder) (ops : List BuilderOp) : BlockBuilder :=
  ops.foldl applyOp b

/-- The frame every `add_*` call must preserve: index and symbol-table
offset unchanged, and the symbol table only extended (every previously
present symbol keeps its code). -/
def builderFrame (b b2 : BlockBuilder) : Prop :=
  b2.index = b.index ∧ b2.symbols_start = b.symbols_start ∧
    b.symbols.symbols <+: b2.symbols.symbols

def emptyTable : datalog.SymbolTable := { symbols := [] }

/-- Conversion of a list of ambient facts through one threaded table, the
way a caller of `authorize` supplies the request context. -/
def convertFacts : List Fact → datalog.SymbolTable → List datalog.Fact × datalog.SymbolTable
  | [], t => ([], t)
  | f :: rest, t =>
    let r := Fact.convert f t
    let r2 := convertFacts rest r.2
    (r.1 :: r2.1, r2.2)

/-- Concrete scenarios 1 and 2 of the spec: a `check_right("read")` caveat
built from an empty base table. -/
def sc1_builder : BlockBuilder :=
  BlockBuilder.check_right (BlockBuilder.new 0 emptyTable) "read"

/-- Scenario 1 fact set: the granted right plus the read-request ambient
facts, interned against the same table as the caveat. -/
def sc1_facts : List datalog.Fact :=
  (convertFacts
    [fact "right" [s "authority", string "/data", s "read"],
     fact "resource" [s "ambient", string "/data"],
     fact "operation" [s "ambient", s "read"]] sc1_builder.symbols).1

/-- Scenario 2 fact set: same token, but the ambient operation is a write. -/
def sc2_facts : List datalog.Fact :=
  (convertFacts
    [fact "right" [s "authority", string "/data", s "read"],
     fact "resource" [s "ambient", string "/data"],
     fact "operation" [s "ambient", s "write"]] sc1_builder.symbols).1

/-- Concrete scenario 3 of the spec: a `resource_prefix("/data/")` caveat. -/
def sc3_builder : BlockBuilder :=
  BlockBuilder.resource_prefix (BlockBuilder.new 0 emptyTable) "/data/"

def sc3_facts_match : List datalog.Fact :=
  (convertFacts [fact "resource" [s "ambient", string "/data/public/file.txt"]]
    sc3_builder.symbols).1

def sc3_facts_nomatch : List datalog.Fact :=
  (convertFacts [fact "resource" [s "ambient", string "/other/file.txt"]]
    sc3_builder.symbols).1

/-- Concrete scenario 4 of the spec: an `expiration_date` caveat at
timestamp T = 1000 seconds after the epoch. -/
def sc4_builder : BlockBuilder :=
  (BlockBuilder.expiration_date (BlockBuilder.new 0 emptyTable) 1000).getD
    (BlockBuilder.new 0 emptyTable)

def sc4_facts_late : List datalog.Fact :=
  (convertFacts [fact "time" [s "ambient", Atom.Date 1001]] sc4_builder.symbols).1

def sc4_facts_early : List datalog.Fact :=
  (convertFacts [fact "time" [s "ambient", Atom.Date 999]] sc4_builder.symbols).1

/-- The converted form of the scenario 1-2 caveat: interning from the empty
table assigns `check_right` ↦ 0, `read` ↦ 1, `resource` ↦ 2, `ambient` ↦ 3,
`operation` ↦ 4, `right` ↦ 5, `authority` ↦ 6. -/
def sc1_caveat_c : datalog.Rule :=
  { head := { name := 0, ids := [datalog.ID.Symbol 1] }
    body := [{ name := 2, ids := [datalog.ID.Symbol 3, datalog.ID.Variable 0] },
             { name := 4, ids := [datalog.ID.Symbol 3, datalog.ID.Symbol 1] },
             { name := 5, ids := [datalog.ID.Symbol 6, datalog.ID.Variable 0,
                                  datalog.ID.Symbol 1] }]
    constraints := [] }

/-- The converted form of the scenario 1 fact set under the same table. -/
def sc1_facts_c : List datalog.Fact :=
  [{ predicate := { name := 5, ids := [datalog.ID.Symbol 6, datalog.ID.Str "/data",
                                       datalog.ID.Symbol 1] } },
   { predicate := { name := 2, ids := [datalog.ID.Symbol 3, datalog.ID.Str "/data"] } },
   { predicate := { name := 4, ids := [datalog.ID.Symbol 3, datalog.ID.Symbol 1] } }]

/-- The converted form of the scenario 2 fact set: the ambient operation is
now the fresh symbol `write` ↦ 7. -/
def sc2_facts_c : List datalog.Fact :=
  [{ predicate := { name := 5, ids := [datalog.ID.Symbol 6, datalog.ID.Str "/data",
                                       datalog.ID.Symbol 1] } },
   { predicate := { name := 2, ids := [datalog.ID.Symbol 3, datalog.ID.Str "/data"] } },
   { predicate := { name := 4, ids := [datalog.ID.Symbol 3, datalog.ID.Symbol 7] } }]

/-- The converted form of the scenario 3 caveat: `prefix` ↦ 0,
`resource` ↦ 1, `ambient` ↦ 2. -/
def sc3_caveat_c : datalog.Rule :=
  { head := { name := 0, ids := [datalog.ID.Variable 0] }
    body := [{ name := 1, ids := [datalog.ID.Symbol 2, datalog.ID.Variable 0] }]
    constraints := [datalog.Constraint.mk 0
      (datalog.ConstraintKind.Str (datalog.StrConstraint.Prefix "/data/"))] }

def sc3_facts_match_c : List datalog.Fact :=
  [{ predicate := { name := 1, ids := [datalog.ID.Symbol 2,
                                       datalog.ID.Str "/data/public/file.txt"] } }]

def sc3_facts_nomatch_c : List datalog.Fact :=
  [{ predicate := { name := 1, ids := [datalog.ID.Symbol 2,
                                       datalog.ID.Str "/other/file.txt"] } }]

/-- The converted form of the scenario 4 caveat at T = 1000:
`expiration` ↦ 0, `time` ↦ 1, `ambient` ↦ 2. -/
def sc4_caveat_c : datalog.Rule :=
  { head := { name := 0, ids := [datalog.ID.Variable 0] }
    body := [{ name := 1, ids := [datalog.ID.Symbol 2, datalog.ID.Variable 0] }]
    constraints := [datalog.Constraint.mk 0
      (datalog.ConstraintKind.Date (datalog.DateConstraint.Before 1000))] }

def sc4_facts_late_c : List datalog.Fact :=
  [{ predicate := { name := 1, ids := [datalog.ID.Symbol 2, datalog.ID.Date 1001] } }]

def sc4_facts_early_c : List datalog.Fact :=
  [{ predicate := { name := 1, ids := [datalog.ID.Symbol 2, datalog.ID.Date 999] } }]

theorem insert_symbols_extends (t : datalog.SymbolTable) (x : String) :
    t.symbols <+: (datalog.SymbolTable.insert t x).2.symbols := by
  unfold datalog.SymbolTable.insert
  split
  · exact List.prefix_rfl
  · exact ⟨[x], rfl⟩

theorem atom_convert_extends (a : Atom) (t : datalog.SymbolTable) :
    t.symbols <+: (Atom.convert a t).2.symbols := by
  cases a with
  | Symbol x => exact insert_symbols_extends t x
  | Variable v => exact List.prefix_rfl
  | Integer i => exact List.prefix_rfl
  | Str x => exact List.prefix_rfl
  | Date d => exact List.prefix_rfl

theorem convertIds_extends (l : List Atom) (t : datalog.SymbolTable) :
    t.symbols <+: (convertIds l t).2.symbols := by
  induction l generalizing t with
  | nil => exact List.prefix_rfl
  | cons a rest ih => exact (atom_convert_extends a t).trans (ih (Atom.convert a t).2)

theorem predicate_convert_extends (p : Predicate) (t : datalog.SymbolTable) :
    t.symbols <+: (Predicate.convert p t).2.symbols :=
  (insert_symbols_extends t p.name).trans
    (convertIds_extends p.ids (datalog.SymbolTable.insert t p.name).2)

theorem fact_convert_extends (f : Fact) (t : datalog.SymbolTable) :
    t.symbols <+: (Fact.convert f t).2.symbols :=
  predicate_convert_extends f.pred t

theorem convertPreds_extends (l : List Predicate) (t : datalog.SymbolTable) :
    t.symbols <+: (convertPreds l t).2.symbols := by
  induction l generalizing t with
  | nil => exact List.prefix_rfl
  | cons p rest ih =>
    exact (predicate_convert_extends p t).trans (ih (Predicate.convert p t).2)

theorem rule_convert_extends (r : Rule) (t : datalog.SymbolTable) :
    t.symbols <+: (Rule.convert r t).2.symbols :=
  (predicate_convert_extends r.head t).trans
    (convertPreds_extends r.body (Predicate.convert r.head t).2)

theorem convertIds_length (l : List Atom) (t : datalog.SymbolTable) :
    (convertIds l t).1.length = l.length := by
  induction l generalizing t with
  | nil => rfl
  | cons a rest ih => simp [convertIds, ih]

theorem predicate_convert_ids_length (p : Predicate) (t : datalog.SymbolTable) :
    (Predicate.convert p t).1.ids.length = p.ids.length :=
  convertIds_length p.ids (datalog.SymbolTable.insert t p.name).2

theorem atom_convert_isVariable (a : Atom) (t : datalog.SymbolTable) :
    datalog.ID.isVariable (Atom.convert a t).1 = Atom.isVariable a := by
  cases a <;> rfl

theorem convertIds_ground (l : List Atom) (t : datalog.SymbolTable) :
    ((convertIds l t).1.all (fun i => ! datalog.ID.isVariable i)) =
      (l.all (fun a => ! Atom.isVariable a)) := by
  induction l generalizing t with
  | nil => rfl
  | cons a rest ih =>
    simp only [convertIds, List.all_cons, atom_convert_isVariable, ih]

theorem fact_convert_ground (f : Fact) (t : datalog.SymbolTable) :
    datalog.Predicate.isGround (Fact.convert f t).1.predicate =
      Predicate.isGround f.pred :=
  convertIds_ground f.pred.ids
    (datalog.SymbolTable.insert t f.pred.name).2

theorem applyOp_frame (b : BlockBuilder) (op : BuilderOp) :
    builderFrame b (applyOp b op) := by
  cases op with
  | addFact f =>
    exact ⟨rfl, rfl, fact_convert_extends f b.symbols⟩
  | addRule r =>
    exact ⟨rfl, rfl, rule_convert_extends r b.symbols⟩
  | addCaveat r =>
    exact ⟨rfl, rfl, rule_convert_extends r b.symbols⟩

theorem applyOps_frame (ops : List BuilderOp) (b : BlockBuilder) :
    builderFrame b (applyOps b ops) := by
  induction ops generalizing b with
  | nil => exact ⟨rfl, rfl, List.prefix_rfl⟩
  | cons op rest ih =>
    obtain ⟨h1, h2, h3⟩ := applyOp_frame b op
    obtain ⟨g1, g2, g3⟩ := ih (applyOp b op)
    exact ⟨g1.trans h1, g2.trans h2, h3.trans g3⟩

/-- C1: for every builder history, `build()` returns a `Block` whose symbol
table is exactly the suffix of the builder's cumulative table starting at
`symbols_start` (the symbols newly introduced since the builder was
created, so the base table concatenated with the block's table recovers the
cumulative table), whose index equals the builder's index, and whose facts,
rules, and caveats are exactly those accumulated in the builder. -/
theorem C1_build_incremental_block (idx : Nat) (base : datalog.SymbolTable)
    (ops : List BuilderOp) :
    let b := applyOps (BlockBuilder.new idx base) ops
    (BlockBuilder.build b).index = idx ∧
    (BlockBuilder.build b).facts = b.facts ∧
    (BlockBuilder.build b).rules = b.rules ∧
    (BlockBuilder.build b).caveats = b.caveats ∧
    (BlockBuilder.build b).symbols.symbols = b.symbols.symbols.drop b.symbols_start ∧
    base.symbols ++ (BlockBuilder.build b).symbols.symbols = b.symbols.symbols := by
  intro b
  obtain ⟨hidx, hstart, tail, htail⟩ := applyOps_frame ops (BlockBuilder.new idx base)
  refine ⟨hidx, rfl, rfl, rfl, rfl, ?_⟩
  show base.symbols ++ b.symbols.symbols.drop b.symbols_start = b.symbols.symbols
  have hstart2 : b.symbols_start = base.symbols.length := hstart
  have hbase : (BlockBuilder.new idx base).symbols.symbols = base.symbols := rfl
  rw [hbase] at htail
  rw [hstart2, ← htail, List.drop_left]

/-- C8: `BlockBuilder::new(index, base)` records `symbols_start` equal to
the number of symbols in the base table, and every later builder operation
preserves that offset, so a builder seeded with a token's cumulative table
carries the offset the append contract requires. -/
theorem C8_new_records_cumulative_offset (idx : Nat) (base : datalog.SymbolTable)
    (ops : List BuilderOp) :
    (BlockBuilder.new idx base).symbols_start = base.symbols.length ∧
    (applyOps (BlockBuilder.new idx base) ops).symbols_start = base.symbols.length :=
  ⟨rfl, (applyOps_frame ops (BlockBuilder.new idx base)).2.1⟩

/-- C10: each of `add_fact`, `add_rule`, `add_caveat` appends exactly one
converted element to its own list, leaves the other two lists, the index,
and `symbols_start` unchanged, and only ever extends the symbol table (the
old table is a prefix of the new one, so existing codes are kept). -/
theorem C10_add_operations_frame (b : BlockBuilder) (f : Fact) (r c : Rule) :
    ((BlockBuilder.add_fact b f).facts = b.facts ++ [(Fact.convert f b.symbols).1] ∧
     (BlockBuilder.add_fact b f).rules = b.rules ∧
     (BlockBuilder.add_fact b f).caveats = b.caveats ∧
     builderFrame b (BlockBuilder.add_fact b f)) ∧
    ((BlockBuilder.add_rule b r).rules = b.rules ++ [(Rule.convert r b.symbols).1] ∧
     (BlockBuilder.add_rule b r).facts = b.facts ∧
     (BlockBuilder.add_rule b r).caveats = b.caveats ∧
     builderFrame b (BlockBuilder.add_rule b r)) ∧
    ((BlockBuilder.add_caveat b c).caveats = b.caveats ++ [(Rule.convert c b.symbols).1] ∧
     (BlockBuilder.add_caveat b c).facts = b.facts ∧
     (BlockBuilder.add_caveat b c).rules = b.rules ∧
     builderFrame b (BlockBuilder.add_caveat b c)) :=
  ⟨⟨rfl, rfl, rfl, rfl, rfl, fact_convert_extends f b.symbols⟩,
   ⟨rfl, rfl, rfl, rfl, rfl, rule_convert_extends r b.symbols⟩,
   ⟨rfl, rfl, rfl, rfl, rfl, rule_convert_extends c b.symbols⟩⟩

/-- C2 counterexample: at a `SystemTime` one second before `UNIX_EPOCH`,
both the `date` helper and `BlockBuilder::expiration_date` hit the
`duration_since(UNIX_EPOCH).unwrap()` panic (modelled as `none`), so the
builder API does not complete without an uncatchable fault for every
`SystemTime` argument. -/
theorem C2_pre_epoch_panics :
    date (-1) = none ∧
    BlockBuilder.expiration_date (BlockBuilder.new 0 emptyTable) (-1) = none :=
  ⟨by decide, by decide⟩

/-- C2 amended: for every `SystemTime` at or after `UNIX_EPOCH`, the `date`
helper and `BlockBuilder::expiration_date` complete and return a value;
for times earlier than `UNIX_EPOCH` they panic through
`duration_since(UNIX_EPOCH).unwrap()`. -/
theorem C2_no_fault_at_or_after_epoch (t : Int) (b : BlockBuilder) (h : 0 ≤ t) :
    (date t).isSome = true ∧ (BlockBuilder.expiration_date b t).isSome = true := by
  constructor
  · simp [date, duration_since_epoch, h]
  · simp [BlockBuilder.expiration_date, duration_since_epoch, h]

/-- C2 witness: the amended statement instantiated at the epoch itself. -/
theorem C2_no_fault_witness :
    (0 : Int) ≤ 0 ∧
      ((date 0).isSome = true ∧
        (BlockBuilder.expiration_date (BlockBuilder.new 0 emptyTable) 0).isSome = true) :=
  ⟨by decide, C2_no_fault_at_or_after_epoch 0 (BlockBuilder.new 0 emptyTable) (by decide)⟩

/-- C3 counterexample: `Fact::new` accepts a `Variable` atom unchanged, so
the builder interface produces a non-ground `Fact`. -/
theorem C3_variable_fact_not_ground :
    Predicate.isGround (Fact.new "f" [Atom.Variable 0]).pred = false := by
  decide

/-- C3 amended: `Fact::new` and the `fact` helper copy the supplied atoms
unchanged and perform no groundness validation: the resulting `Fact` is
ground exactly when none of the supplied atoms is a `Variable`, and
conversion preserves that status (the converted datalog fact is ground iff
the builder fact was). -/
theorem C3_fact_ground_iff_no_variable (name : String) (ids : List Atom)
    (t : datalog.SymbolTable) :
    (Fact.new name ids).pred.ids = ids ∧
    (fact name ids).pred.ids = ids ∧
    Predicate.isGround (Fact.new name ids).pred =
      ids.all (fun a => ! Atom.isVariable a) ∧
    datalog.Predicate.isGround ((Fact.convert (Fact.new name ids) t).1.predicate) =
      Predicate.isGround (Fact.new name ids).pred :=
  ⟨rfl, rfl, rfl, fact_convert_ground (Fact.new name ids) t⟩

/-- C4: the authority-marker normalization of `add_authority_fact` and
`add_authority_rule` is idempotent, always yields a list beginning with the
`authority` symbol, inserts exactly one marker at position 0 when the list
is empty or starts with something else, leaves an already-marked list
unchanged, and is exactly what both operations apply before conversion. -/
theorem C4_authority_marker_normalization (p : Predicate) (b : BiscuitBuilder)
    (f : Fact) (r : Rule) :
    authority_normalize (authority_normalize p) = authority_normalize p ∧
    beginsWithAuthority (authority_normalize p).ids = true ∧
    (authority_normalize p).ids =
      (if beginsWithAuthority p.ids then p.ids else authority_symbol :: p.ids) ∧
    (BiscuitBuilder.add_authority_fact b f).facts =
      b.facts ++ [(Fact.convert (Fact.mk (authority_normalize f.pred)) b.symbols).1] ∧
    (BiscuitBuilder.add_authority_rule b r).rules =
      b.rules ++
        [(Rule.convert (Rule.mk (authority_normalize r.head) r.body r.constraints)
          b.symbols).1] := by
  have marked : ∀ q : Predicate,
      beginsWithAuthority (authority_symbol :: q.ids) = true := by
    intro q
    simp [beginsWithAuthority]
  have keep : ∀ q : Predicate, beginsWithAuthority q.ids = true →
      authority_normalize q = q := by
    intro q h
    unfold authority_normalize
    rw [if_pos h]
  have ins : ∀ q : Predicate, beginsWithAuthority q.ids = false →
      authority_normalize q = Predicate.mk q.name (authority_symbol :: q.ids) := by
    intro q h
    unfold authority_normalize
    rw [if_neg (by simp [h])]
  refine ⟨?_, ?_, ?_, rfl, ?_⟩
  · by_cases h : beginsWithAuthority p.ids
    · simp only [keep p h]
    · have h2 : beginsWithAuthority p.ids = false := by simpa using h
      rw [ins p h2]
      exact keep (Predicate.mk p.name (authority_symbol :: p.ids)) (marked p)
  · by_cases h : beginsWithAuthority p.ids
    · rw [keep p h]
      exact h
    · have h2 : beginsWithAuthority p.ids = false := by simpa using h
      rw [ins p h2]
      exact marked p
  · by_cases h : beginsWithAuthority p.ids
    · rw [keep p h, if_pos h]
    · have h2 : beginsWithAuthority p.ids = false := by simpa using h
      rw [ins p h2, if_neg (by simp [h2])]
  · cases r with
    | mk head body constraints => rfl

/-- C9: `add_authority_caveat` converts and appends the caveat exactly as
given, touching no other element list; in particular the converted head has
the same number of identifiers as the supplied head, so no `authority`
marker is ever inserted, even for an empty or unmarked head. -/
theorem C9_add_authority_caveat_verbatim (b : BiscuitBuilder) (r : Rule) :
    (BiscuitBuilder.add_authority_caveat b r).caveats =
      b.caveats ++ [(Rule.convert r b.symbols).1] ∧
    (BiscuitBuilder.add_authority_caveat b r).facts = b.facts ∧
    (BiscuitBuilder.add_authority_caveat b r).rules = b.rules ∧
    ((Rule.convert r b.symbols).1).head.ids.length = r.head.ids.length :=
  ⟨rfl, rfl, rfl, predicate_convert_ids_length r.head b.symbols⟩

set_option maxHeartbeats 4000000 in
/-- C5: `check_right(r)` appends exactly one caveat, touching no other
list; that caveat is the conversion of the rule with head
`check_right(r)`, no constraints, and the body
`resource(ambient, $0), operation(ambient, r), right(authority, $0, r)` in
that order; on the spec's concrete scenarios the caveat passes when the
ambient operation is the granted `read` right and fails when it is a
`write` for which no right fact exists. -/
theorem C5_check_right_shape_and_scenarios :
    (∀ (b : BlockBuilder) (r : String),
      let b2 := BlockBuilder.check_right b r
      b2.caveats = b.caveats ++ [(Rule.convert (check_right_rule r) b.symbols).1] ∧
      b2.facts = b.facts ∧
      b2.rules = b.rules ∧
      check_right_rule r = rule "check_right" [s r]
        [pred "resource" [s "ambient", Atom.Variable 0],
         pred "operation" [s "ambient", s r],
         pred "right" [s "authority", Atom.Variable 0, s r]] ∧
      (Rule.convert (check_right_rule r) b.symbols).1.constraints = []) ∧
    sc1_builder.caveats = [sc1_caveat_c] ∧
    sc1_facts = sc1_facts_c ∧
    sc2_facts = sc2_facts_c ∧
    datalog.check_caveat sc1_facts_c sc1_caveat_c = true ∧
    datalog.check_caveat sc2_facts_c sc1_caveat_c = false := by
  refine ⟨fun b r => ⟨?_, ?_, ?_, rfl, ?_⟩,
    by decide, by decide, by decide, by decide, by decide⟩
  · simp only [BlockBuilder.check_right, BlockBuilder.add_caveat]
  · simp only [BlockBuilder.check_right, BlockBuilder.add_caveat]
  · simp only [BlockBuilder.check_right, BlockBuilder.add_caveat]
  · simp only [Rule.convert, check_right_rule, rule]

set_option maxHeartbeats 4000000 in
/-- C6: for every time at or after the epoch, `expiration_date` appends
exactly one caveat, whose body is the single predicate
`time(ambient, $0)` and whose sole constraint is `Before(T)` on variable 0
with `T` the whole-second timestamp; on the spec's concrete scenario 4 the
caveat rejects an ambient time of `T+1` and accepts `T-1`. -/
theorem C6_expiration_date_shape_and_scenario :
    (∀ (b : BlockBuilder) (t : Int), 0 ≤ t →
      BlockBuilder.expiration_date b t =
        some (BlockBuilder.add_caveat b (expiration_rule t.toNat)) ∧
      expiration_rule t.toNat = constrained_rule "expiration" [Atom.Variable 0]
        [pred "time" [s "ambient", Atom.Variable 0]]
        [{ id := 0,
           kind := datalog.ConstraintKind.Date (datalog.DateConstraint.Before t.toNat) }]) ∧
    sc4_builder.caveats = [sc4_caveat_c] ∧
    sc4_facts_late = sc4_facts_late_c ∧
    sc4_facts_early = sc4_facts_early_c ∧
    datalog.check_caveat sc4_facts_late_c sc4_caveat_c = false ∧
    datalog.check_caveat sc4_facts_early_c sc4_caveat_c = true := by
  refine ⟨fun b t ht => ⟨?_, rfl⟩,
    by decide, by decide, by decide, by decide, by decide⟩
  simp [BlockBuilder.expiration_date, duration_since_epoch, ht]

/-- C6 witness: the quantified part instantiated at an empty builder and
timestamp 1000. -/
theorem C6_expiration_date_witness :
    (0 : Int) ≤ 1000 ∧
      BlockBuilder.expiration_date (BlockBuilder.new 0 emptyTable) 1000 =
        some (BlockBuilder.add_caveat (BlockBuilder.new 0 emptyTable)
          (expiration_rule (Int.toNat 1000))) :=
  ⟨by decide,
   (C6_expiration_date_shape_and_scenario.1 (BlockBuilder.new 0 emptyTable) 1000
      (by decide)).1⟩

set_option maxHeartbeats 4000000 in
/-- C7: `resource_prefix(p)` appends exactly one caveat, whose body is the
single predicate `resource(ambient, $0)` and whose sole constraint is a
string `Prefix(p)` constraint on variable 0; on the spec's concrete
scenario 3 the caveat accepts an ambient resource under `/data/` and
rejects one under `/other/`. -/
theorem C7_resource_prefix_shape_and_scenario :
    (∀ (b : BlockBuilder) (p : String),
      let b2 := BlockBuilder.resource_prefix b p
      b2.caveats = b.caveats ++ [(Rule.convert (resource_prefix_rule p) b.symbols).1] ∧
      b2.facts = b.facts ∧
      b2.rules = b.rules ∧
      resource_prefix_rule p = constrained_rule "prefix" [Atom.Variable 0]
        [pred "resource" [s "ambient", Atom.Variable 0]]
        [{ id := 0,
           kind := datalog.ConstraintKind.Str (datalog.StrConstraint.Prefix p) }]) ∧
    sc3_builder.caveats = [sc3_caveat_c] ∧
    sc3_facts_match = sc3_facts_match_c ∧
    sc3_facts_nomatch = sc3_facts_nomatch_c ∧
    datalog.check_caveat sc3_facts_match_c sc3_caveat_c = true ∧
    datalog.check_caveat sc3_facts_nomatch_c sc3_caveat_c = false := by
  refine ⟨fun b p => ⟨rfl, rfl, rfl, rfl⟩,
    by decide, by decide, by decide, by decide, by decide⟩

end Biscuit
